import Mathlib

/-!
Shallow embedding of the skynet-rust agent runtime and proofs about it.

The embedding covers, faithfully to the Rust source:
* `src/core/message.rs` — the `Message` record and its constructors
  (the fresh UUID of `new_text` is modeled as an explicit `id` parameter;
  the `metadata` map and the creation `timestamp` are omitted because no
  verified property mentions them and their generation is I/O);
* `src/core/agent.rs` — the `InMemoryStorage` reference implementation of
  the `Memory` trait (`store`/`retrieve`/`search`), the `process_cycle`
  orchestration and the `run` loop (time instants are `Nat`, the provider
  is a function `List Message → Except String String`, the shared running
  flag read at iteration `n` is `flags n`);
* `src/providers/anthropic.rs` — `convert_messages`,
  `extract_system_message` and the request assembly of `generate`;
* `src/skynet/pulse.rs` — the `Pulse` heartbeat monitor
  (`Instant` is modeled as a `Nat` time stamp, `Duration` as a `Nat`,
  and the `u64` pulse counter as a `Nat`).
-/

namespace Skynet

/-- Rust `Role` from src/core/message.rs: message role in conversation. -/
inductive Role where
  | system
  | user
  | assistant
  | tool
  deriving DecidableEq, Repr

/-- Rust `MessageType` from src/core/message.rs: message type classification. -/
inductive MessageType where
  | text
  | toolCall
  | toolResult
  | error
  deriving DecidableEq, Repr

/-- Rust `Message` from src/core/message.rs. `metadata` and `timestamp` are
omitted: no claim below depends on them. -/
structure Message where
  id : String
  role : Role
  content : String
  messageType : MessageType
  deriving DecidableEq, Repr

/-- Rust `Message::new_text`: the freshly generated UUID is the `id` parameter. -/
def Message.new_text (id : String) (role : Role) (content : String) : Message :=
  { id := id, role := role, content := content, messageType := MessageType.text }

/-- Rust `Message::system`. -/
def Message.system (id : String) (content : String) : Message :=
  Message.new_text id Role.system content

/-- Rust `Message::user`. -/
def Message.user (id : String) (content : String) : Message :=
  Message.new_text id Role.user content

/-- Rust `Message::assistant`. -/
def Message.assistant (id : String) (content : String) : Message :=
  Message.new_text id Role.assistant content

/-- Rust `InMemoryStorage::store` (src/core/agent.rs): pushes a clone of the
message onto the guarded vector; never fails. The storage state is the
ordered list of stored messages. -/
def storeImpl (messages : List Message) (message : Message) : List Message :=
  messages ++ [message]

/-- Rust `InMemoryStorage::retrieve` (src/core/agent.rs): computes
`start = if len > limit { len - limit } else { 0 }` and returns
`messages[start..]`. -/
def retrieveImpl (messages : List Message) (limit : Nat) : List Message :=
  let start := if messages.length > limit then messages.length - limit else 0
  messages.drop start

/-- Rust `str::to_lowercase`, modeled as per-character lowercasing of the
character data. -/
def strToLower (s : String) : String :=
  String.mk (s.data.map Char.toLower)

/-- Helper for `str::contains`: does the first character list occur at the
head of the second? -/
def leadsWith : List Char → List Char → Bool
  | [], _ => true
  | _ :: _, [] => false
  | b :: bs, a :: as => b == a && leadsWith bs as

/-- Helper for `str::contains`: does the first character list occur
contiguously anywhere in the second? -/
def occursIn : List Char → List Char → Bool
  | needle, [] => needle.isEmpty
  | needle, a :: hs => leadsWith needle (a :: hs) || occursIn needle hs

/-- Rust `str::contains(pat)`: substring containment. -/
def strContainsSub (hay pat : String) : Bool :=
  occursIn pat.data hay.data

/-- The match predicate of `InMemoryStorage::search`:
`msg.content.to_lowercase().contains(&query.to_lowercase())`. -/
def searchMatches (query : String) (msg : Message) : Bool :=
  strContainsSub (strToLower msg.content) (strToLower query)

/-- Rust `InMemoryStorage::search` (src/core/agent.rs): filters the stored
messages by case-insensitive substring containment of the query. -/
def searchImpl (messages : List Message) (query : String) : List Message :=
  messages.filter (fun msg => searchMatches query msg)

/-- Rust `AnthropicMessage` from src/providers/anthropic.rs: one entry of the
wire-format exchange history. -/
structure AnthropicMessage where
  role : String
  content : String
  deriving DecidableEq, Repr

/-- Rust `AnthropicRequest` from src/providers/anthropic.rs: the request body
assembled by `generate`. -/
structure AnthropicRequest where
  model : String
  maxTokens : Nat
  messages : List AnthropicMessage
  system : Option String
  deriving DecidableEq, Repr

/-- The model string fixed by `AnthropicProvider::new`. -/
def anthropicModel : String := "claude-3-sonnet-20240229"

/-- The filter of `convert_messages`:
`matches!(msg.role, Role::User | Role::Assistant)`. -/
def isExchangeRole (msg : Message) : Bool :=
  match msg.role with
  | Role.user => true
  | Role.assistant => true
  | _ => false

/-- The find predicate of `extract_system_message`:
`matches!(msg.role, Role::System)`. -/
def isSystemRole (msg : Message) : Bool :=
  match msg.role with
  | Role.system => true
  | _ => false

/-- Rust `AnthropicProvider::convert_messages`: keeps only `User`/`Assistant`
messages and maps them to wire format; the `_ => "user"` fallback mirrors
the source's unreachable match arm. -/
def convertMessages (messages : List Message) : List AnthropicMessage :=
  (messages.filter isExchangeRole).map (fun msg =>
    { role := match msg.role with
              | Role.user => "user"
              | Role.assistant => "assistant"
              | _ => "user"
      content := msg.content })

/-- Rust `AnthropicProvider::extract_system_message`: content of the first
`System`-role message, if any. -/
def extractSystemMessage (messages : List Message) : Option String :=
  (messages.find? isSystemRole).map (fun msg => msg.content)

/-- The request assembled by `AnthropicProvider::generate` before the HTTP
call: model from the provider, `max_tokens: 1000`, converted exchange, and
the extracted system instruction. -/
def generateRequest (messages : List Message) : AnthropicRequest :=
  { model := anthropicModel
    maxTokens := 1000
    messages := convertMessages messages
    system := extractSystemMessage messages }

/-- The per-message translation that `convert_messages` is proved equal to:
`User`/`Assistant` messages map to their wire entry, every other role is
dropped. -/
def exchangeEntry (m : Message) : Option AnthropicMessage :=
  match m.role with
  | Role.user => some { role := "user", content := m.content }
  | Role.assistant => some { role := "assistant", content := m.content }
  | Role.system => none
  | Role.tool => none

/-- Rust `Pulse` state from src/skynet/pulse.rs: `interval: Duration` and
`Instant` time stamps are `Nat`s, the `u64` counter a `Nat`. -/
structure PulseState where
  interval : Nat
  lastPulse : Option Nat
  pulseCount : Nat
  running : Bool
  deriving DecidableEq, Repr

/-- Rust `Pulse::new`. -/
def Pulse.new (interval : Nat) : PulseState :=
  { interval := interval, lastPulse := none, pulseCount := 0, running := false }

/-- Rust `Pulse::start` at instant `now`: no-op (with a warning) when already
running; otherwise sets the flag and records `now` as the last pulse.
Always returns `Ok(())`, so only the state is modeled. -/
def Pulse.start (p : PulseState) (now : Nat) : PulseState :=
  if p.running then p
  else { p with running := true, lastPulse := some now }

/-- Rust `Pulse::stop`: clears the running flag; idempotent. -/
def Pulse.stop (p : PulseState) : PulseState :=
  { p with running := false }

/-- Rust `Pulse::heartbeat` at instant `now`: error (state untouched) when not
running; otherwise records `now` and increments the counter. -/
def Pulse.heartbeat (p : PulseState) (now : Nat) : PulseState × Except String Unit :=
  if p.running then
    ({ p with lastPulse := some now, pulseCount := p.pulseCount + 1 }, Except.ok ())
  else
    (p, Except.error "Pulse is not running")

/-- Rust `Pulse::is_healthy` at instant `now`: false when stopped or when no
pulse was ever recorded; otherwise `elapsed < interval * 2` with
`elapsed = now - last`. -/
def Pulse.isHealthy (p : PulseState) (now : Nat) : Bool :=
  if p.running then
    match p.lastPulse with
    | some last => decide (now - last < p.interval * 2)
    | none => false
  else false

/-- Rust `PulseStats` from src/skynet/pulse.rs. -/
structure PulseStats where
  running : Bool
  pulseCount : Nat
  timeSinceLast : Option Nat
  interval : Nat
  isHealthy : Bool
  deriving DecidableEq, Repr

/-- Rust `Pulse::stats` at instant `now`: a freshly computed snapshot; takes
only read locks, so the pulse state is unchanged. -/
def Pulse.stats (p : PulseState) (now : Nat) : PulseStats :=
  { running := p.running
    pulseCount := p.pulseCount
    timeSinceLast := p.lastPulse.map (fun t => now - t)
    interval := p.interval
    isHealthy := Pulse.isHealthy p now }

/-- The loop of `Pulse::run`: while the flag is set, heartbeat (a failing
heartbeat would propagate out), health-check (log only), sleep. `clock n`
is the instant observed at iteration `n`; `fuel` bounds the number of
modeled iterations. -/
def Pulse.runLoop : PulseState → Nat → (Nat → Nat) → PulseState × Except String Unit
  | p, 0, _ => (p, Except.ok ())
  | p, fuel + 1, clock =>
    if p.running then
      match Pulse.heartbeat p (clock 0) with
      | (p1, Except.ok _) => Pulse.runLoop p1 fuel (fun n => clock (n + 1))
      | (p1, Except.error e) => (p1, Except.error e)
    else (p, Except.ok ())

/-- Rust `Pulse::run`: `start`, then the monitoring loop. -/
def Pulse.run (p : PulseState) (fuel : Nat) (clock : Nat → Nat) : PulseState × Except String Unit :=
  Pulse.runLoop (Pulse.start p (clock 0)) fuel (fun n => clock (n + 1))

/-- One public `Pulse` entry point, as invoked at instant `now`; the two
read-only queries are included so that sequences of operations cover the
whole API. -/
inductive PulseOp where
  | start (now : Nat)
  | stop
  | heartbeat (now : Nat)
  | healthQuery (now : Nat)
  | statsQuery (now : Nat)
  deriving DecidableEq, Repr

/-- State effect of one `Pulse` entry point: `is_healthy` and `stats` take
only read locks and leave the state unchanged. -/
def PulseOp.apply (p : PulseState) : PulseOp → PulseState
  | PulseOp.start now => Pulse.start p now
  | PulseOp.stop => Pulse.stop p
  | PulseOp.heartbeat now => (Pulse.heartbeat p now).1
  | PulseOp.healthQuery _ => p
  | PulseOp.statsQuery _ => p

/-- State after a sequence of `Pulse` entry points. -/
def applyOps (p : PulseState) (ops : List PulseOp) : PulseState :=
  ops.foldl PulseOp.apply p

/-- Rust `AgentConfig` from src/config.rs. The `f32` field `temperature` is
omitted (floating point; no claim depends on it). -/
structure AgentConfig where
  maxContextMessages : Nat
  heartbeatIntervalSecs : Nat
  maxTokens : Nat
  deriving DecidableEq, Repr

/-- Step 1 of `SkynetAgent::process_cycle`:
`Message::user("Hello, SKYNET!".to_string())`, the synthesized placeholder
input; the fresh UUID is the `id` parameter. -/
def inputMessage (id : String) : Message :=
  Message.user id "Hello, SKYNET!"

/-- Step 2 of `SkynetAgent::process_cycle` (src/core/agent.rs:104):
`self.memory.retrieve(10)`. The agent's configuration (`self.config`) is
in scope, but the source passes the literal `10`, not
`cfg.maxContextMessages`. -/
def loadContext (cfg : AgentConfig) (mem : List Message) : List Message :=
  retrieveImpl mem 10

/-- Rust `SkynetAgent::process_cycle` over the in-memory storage state `mem`:
synthesize the input, load context, build the conversation, store the
input, call the provider (`gen`), store the reply. `inputId` and `replyId`
stand for the fresh UUIDs of the two constructed messages. Returns the
cycle result and the new storage state. -/
def processCycle (cfg : AgentConfig) (mem : List Message)
    (gen : List Message → Except String String)
    (inputId replyId : String) : Except String Unit × List Message :=
  let input := inputMessage inputId
  let context := loadContext cfg mem
  let conversation := context ++ [input]
  let mem1 := storeImpl mem input
  match gen conversation with
  | Except.error e => (Except.error e, mem1)
  | Except.ok response => (Except.ok (), storeImpl mem1 (Message.assistant replyId response))

/-- The `run` loop of `SkynetAgent` (src/core/agent.rs:63-97), abstracted
over per-iteration observations: `flags n` is the value of the shared
running flag read at the top of iteration `n`, and `results n` the outcome
of the `n`-th `process_cycle`. An `Err` outcome is logged and the loop
continues; the loop exits only on a false flag. Returns, within `fuel`
iterations, the number of cycles executed together with the errors logged
along the way, or `none` when the fuel runs out before the flag is seen
false. -/
def agentRun : Nat → (Nat → Bool) → (Nat → Except String Unit) → Option (Nat × List String)
  | 0, _, _ => none
  | fuel + 1, flags, results =>
    if flags 0 then
      match agentRun fuel (fun n => flags (n + 1)) (fun n => results (n + 1)) with
      | none => none
      | some (k, errs) =>
        some (k + 1,
          (match results 0 with
           | Except.ok _ => []
           | Except.error e => [e]) ++ errs)
    else some (0, [])

/-- The errors among the first `k` cycle outcomes, in order — what the
`run` loop logs during `k` executed cycles. -/
def cycleErrors (k : Nat) (results : Nat → Except String Unit) : List String :=
  (List.range k).filterMap (fun i =>
    match results i with
    | Except.ok _ => none
    | Except.error e => some e)

/-- Sample configuration: the default `max_context_messages = 50` of
src/config.rs. -/
def cfg50 : AgentConfig :=
  { maxContextMessages := 50, heartbeatIntervalSecs := 30, maxTokens := 1000 }

/-- Sample storage state holding eleven messages. -/
def elevenMessages : List Message :=
  (List.range 11).map (fun n => Message.user (toString n) (toString n))

/-- Sample messages for concrete evaluations. -/
def msgA : Message := Message.user "a1" "a"

/-- Second sample message. -/
def msgB : Message := Message.user "b1" "b"

/-- Sample message whose content matches the query "ELL" case-insensitively. -/
def msgHello : Message := Message.user "h1" "Hello"

/-- Sample running-flag trace: true for the first two iterations, then
false. -/
def wFlags (n : Nat) : Bool := decide (n < 2)

/-- Sample cycle outcomes: the first cycle errors, later ones succeed. -/
def wResults (n : Nat) : Except String Unit :=
  if n = 0 then Except.error "boom" else Except.ok ()

/-- A provider behavior that always fails. -/
def genFail : List Message → Except String String :=
  fun _ => Except.error "provider down"

/-- A provider behavior that always succeeds with a fixed reply. -/
def genOk : List Message → Except String String :=
  fun _ => Except.ok "recovered"

/-- C4: after any sequence of `store` calls, `retrieve(limit)` returns
exactly the last `min(limit, total_stored)` stored messages in original
insertion order (the returned window is the unique suffix of that length);
`retrieve(0)` is empty and `retrieve(limit)` with `limit ≥ total_stored`
returns everything. -/
theorem retrieve_last_min (msgs : List Message) (limit : Nat) :
    (retrieveImpl msgs limit).length = min limit msgs.length ∧
    msgs.take (msgs.length - min limit msgs.length) ++ retrieveImpl msgs limit = msgs ∧
    retrieveImpl msgs 0 = [] ∧
    (msgs.length ≤ limit → retrieveImpl msgs limit = msgs) := by
  refine ⟨?_, ?_, ?_, ?_⟩
  · simp only [retrieveImpl, List.length_drop]
    split <;> omega
  · simp only [retrieveImpl]
    split
    · rename_i h
      have he : msgs.length - min limit msgs.length = msgs.length - limit := by omega
      rw [he, List.take_append_drop]
    · rename_i h
      have he : msgs.length - min limit msgs.length = 0 := by omega
      simp [he]
  · simp only [retrieveImpl]
    split
    · simp
    · rename_i h
      have : msgs.length = 0 := by omega
      simp [List.eq_nil_of_length_eq_zero this]
  · intro h
    simp only [retrieveImpl]
    split
    · omega
    · simp

/-- Witness for `retrieve_last_min`: with two stored messages and
`limit = 5 ≥ 2`, everything is returned. -/
theorem retrieve_last_min_witness :
    [msgA, msgB].length ≤ 5 ∧ retrieveImpl [msgA, msgB] 5 = [msgA, msgB] :=
  ⟨by decide, (retrieve_last_min [msgA, msgB] 5).2.2.2 (by decide)⟩

/-- C5: `search(q)` returns, in original insertion order (a sublist of the
store), exactly the stored messages whose content contains `q`
case-insensitively: every returned message matches, and every stored
message not returned does not match. -/
theorem search_case_insensitive (msgs : List Message) (q : String) :
    List.Sublist (searchImpl msgs q) msgs ∧
    (∀ m, m ∈ searchImpl msgs q → m ∈ msgs ∧ searchMatches q m = true) ∧
    (∀ m, m ∈ msgs → m ∉ searchImpl msgs q → searchMatches q m = false) := by
  unfold searchImpl
  refine ⟨List.filter_sublist msgs, ?_, ?_⟩
  · intro m hm
    exact List.mem_filter.mp hm
  · intro m hm hnot
    cases h : searchMatches q m with
    | false => rfl
    | true => exact absurd (List.mem_filter.mpr ⟨hm, h⟩) hnot

/-- Witness for `search_case_insensitive`: the message "Hello" is returned
for query "ELL" and indeed matches case-insensitively. -/
theorem search_case_insensitive_witness :
    msgHello ∈ searchImpl [msgHello] "ELL" ∧
    msgHello ∈ [msgHello] ∧ searchMatches "ELL" msgHello = true :=
  ⟨by decide, (search_case_insensitive [msgHello] "ELL").2.1 msgHello (by decide)⟩

/-- C6: `is_healthy()` is false when stopped (in particular immediately
after construction and immediately after `stop()`), false when running but
no pulse was ever recorded, and otherwise true iff the elapsed time since
the last pulse is strictly below twice the configured interval. -/
theorem is_healthy_characterization (p : PulseState) (now : Nat) (i : Nat) :
    (Pulse.isHealthy p now = true ↔
      p.running = true ∧ ∃ t, p.lastPulse = some t ∧ now - t < 2 * p.interval) ∧
    Pulse.isHealthy (Pulse.new i) now = false ∧
    Pulse.isHealthy (Pulse.stop p) now = false := by
  refine ⟨?_, ?_, ?_⟩
  · unfold Pulse.isHealthy
    by_cases hr : p.running = true
    · cases hl : p.lastPulse with
      | none => simp [hr, hl]
      | some t => simp [hr, hl, Nat.mul_comm]
    · simp [hr]
  · simp [Pulse.isHealthy, Pulse.new]
  · simp [Pulse.isHealthy, Pulse.stop]

/-- C7: `heartbeat()` on a stopped (or never-started) Pulse returns the
NotRunningError and leaves the whole state — in particular `pulse_count`
and the last-pulse time — unchanged; on a running Pulse it succeeds, sets
the last-pulse time to `now` and increments the counter by one. -/
theorem heartbeat_spec (p : PulseState) (now : Nat) (i : Nat) :
    (p.running = false →
       (Pulse.heartbeat p now).2 = Except.error "Pulse is not running" ∧
       (Pulse.heartbeat p now).1 = p) ∧
    (p.running = true →
       (Pulse.heartbeat p now).2 = Except.ok () ∧
       (Pulse.heartbeat p now).1.lastPulse = some now ∧
       (Pulse.heartbeat p now).1.pulseCount = p.pulseCount + 1) ∧
    (Pulse.heartbeat (Pulse.new i) now).1 = Pulse.new i ∧
    (Pulse.heartbeat (Pulse.new i) now).2 = Except.error "Pulse is not running" ∧
    (Pulse.heartbeat (Pulse.stop p) now).1 = Pulse.stop p ∧
    (Pulse.heartbeat (Pulse.stop p) now).2 = Except.error "Pulse is not running" := by
  refine ⟨?_, ?_, ?_, ?_, ?_, ?_⟩
  · intro h
    simp [Pulse.heartbeat, h]
  · intro h
    simp [Pulse.heartbeat, h]
  · simp [Pulse.heartbeat, Pulse.new]
  · simp [Pulse.heartbeat, Pulse.new]
  · simp [Pulse.heartbeat, Pulse.stop]
  · simp [Pulse.heartbeat, Pulse.stop]

/-- Witness for `heartbeat_spec`: a fresh Pulse rejects the heartbeat
unchanged; after `start` the heartbeat increments the counter. -/
theorem heartbeat_spec_witness :
    (Pulse.new 30).running = false ∧
    (Pulse.heartbeat (Pulse.new 30) 5).1 = Pulse.new 30 ∧
    (Pulse.start (Pulse.new 30) 0).running = true ∧
    (Pulse.heartbeat (Pulse.start (Pulse.new 30) 0) 5).1.pulseCount
      = (Pulse.start (Pulse.new 30) 0).pulseCount + 1 :=
  ⟨rfl, ((heartbeat_spec (Pulse.new 30) 5 0).1 rfl).2, rfl,
    (((heartbeat_spec (Pulse.start (Pulse.new 30) 0) 5 0).2.1) rfl).2.2⟩

/-- Per-operation pulse-count effect: a heartbeat on a running Pulse adds
exactly one, everything else leaves the counter alone. -/
theorem pulse_step_count (p : PulseState) (op : PulseOp) :
    (PulseOp.apply p op).pulseCount =
      p.pulseCount +
        (match op with
         | PulseOp.heartbeat _ => if p.running then 1 else 0
         | _ => 0) := by
  cases op with
  | start now =>
    simp only [PulseOp.apply, Pulse.start]
    split <;> rfl
  | stop => rfl
  | heartbeat now =>
    simp only [PulseOp.apply, Pulse.heartbeat]
    split <;> simp_all
  | healthQuery now => rfl
  | statsQuery now => rfl

/-- The pulse counter never decreases across any operation sequence. -/
theorem pulse_count_le_applyOps (ops : List PulseOp) :
    ∀ p : PulseState, p.pulseCount ≤ (applyOps p ops).pulseCount := by
  induction ops with
  | nil =>
    intro p
    simp [applyOps]
  | cons op t ih =>
    intro p
    have h1 : p.pulseCount ≤ (PulseOp.apply p op).pulseCount := by
      rw [pulse_step_count]
      exact Nat.le_add_right _ _
    calc p.pulseCount ≤ (PulseOp.apply p op).pulseCount := h1
      _ ≤ (applyOps (PulseOp.apply p op) t).pulseCount := ih _

/-- The pulse counter never decreases across the `Pulse::run` loop body. -/
theorem pulse_count_le_runLoop (fuel : Nat) :
    ∀ (p : PulseState) (clock : Nat → Nat),
      p.pulseCount ≤ (Pulse.runLoop p fuel clock).1.pulseCount := by
  induction fuel with
  | zero =>
    intro p clock
    simp [Pulse.runLoop]
  | succ n ih =>
    intro p clock
    simp only [Pulse.runLoop]
    split
    · rename_i h
      rw [show Pulse.heartbeat p (clock 0) =
            ({ p with lastPulse := some (clock 0), pulseCount := p.pulseCount + 1 },
              Except.ok ()) from by simp [Pulse.heartbeat, h]]
      refine Nat.le_trans (Nat.le_succ _) ?_
      exact ih { p with lastPulse := some (clock 0), pulseCount := p.pulseCount + 1 }
        (fun n => clock (n + 1))
    · simp

/-- Rust `Pulse::start` does not touch the counter. -/
theorem pulse_start_count (p : PulseState) (now : Nat) :
    (Pulse.start p now).pulseCount = p.pulseCount := by
  simp only [Pulse.start]
  split <;> rfl

/-- C8: across every sequence of Pulse operations the counter never
decreases; each single operation adds exactly one when it is a successful
heartbeat and nothing otherwise; and a whole `run` invocation never
decreases it either. -/
theorem pulse_count_monotone (p : PulseState) (ops : List PulseOp) (op : PulseOp)
    (fuel : Nat) (clock : Nat → Nat) :
    p.pulseCount ≤ (applyOps p ops).pulseCount ∧
    (PulseOp.apply p op).pulseCount =
      p.pulseCount +
        (match op with
         | PulseOp.heartbeat _ => if p.running then 1 else 0
         | _ => 0) ∧
    p.pulseCount ≤ (Pulse.run p fuel clock).1.pulseCount := by
  refine ⟨pulse_count_le_applyOps ops p, pulse_step_count p op, ?_⟩
  have h := pulse_count_le_runLoop fuel (Pulse.start p (clock 0)) (fun n => clock (n + 1))
  rw [pulse_start_count] at h
  exact h

/-- Rust `convert_messages` equals the per-message translation `exchangeEntry`:
`User`/`Assistant` messages are kept in order with mapped roles, all other
roles are dropped. -/
theorem convert_eq_filterMap (msgs : List Message) :
    convertMessages msgs = msgs.filterMap exchangeEntry := by
  induction msgs with
  | nil => rfl
  | cons m t ih =>
    cases hr : m.role with
    | system =>
      have h1 : convertMessages (m :: t) = convertMessages t := by
        simp [convertMessages, List.filter_cons, isExchangeRole, hr]
      have h2 : (m :: t).filterMap exchangeEntry = t.filterMap exchangeEntry := by
        simp [List.filterMap_cons, exchangeEntry, hr]
      rw [h1, h2, ih]
    | tool =>
      have h1 : convertMessages (m :: t) = convertMessages t := by
        simp [convertMessages, List.filter_cons, isExchangeRole, hr]
      have h2 : (m :: t).filterMap exchangeEntry = t.filterMap exchangeEntry := by
        simp [List.filterMap_cons, exchangeEntry, hr]
      rw [h1, h2, ih]
    | user =>
      have h1 : convertMessages (m :: t)
          = { role := "user", content := m.content } :: convertMessages t := by
        simp [convertMessages, List.filter_cons, isExchangeRole, hr]
      have h2 : (m :: t).filterMap exchangeEntry
          = { role := "user", content := m.content } :: t.filterMap exchangeEntry := by
        simp [List.filterMap_cons, exchangeEntry, hr]
      rw [h1, h2, ih]
    | assistant =>
      have h1 : convertMessages (m :: t)
          = { role := "assistant", content := m.content } :: convertMessages t := by
        simp [convertMessages, List.filter_cons, isExchangeRole, hr]
      have h2 : (m :: t).filterMap exchangeEntry
          = { role := "assistant", content := m.content } :: t.filterMap exchangeEntry := by
        simp [List.filterMap_cons, exchangeEntry, hr]
      rw [h1, h2, ih]

/-- The first `System`-role message of the sequence supplies the extracted
system instruction. -/
theorem find_first_system (l2 : List Message) (s : Message)
    (h2 : s.role = Role.system) :
    ∀ l1 : List Message, (∀ m ∈ l1, m.role ≠ Role.system) →
      extractSystemMessage (l1 ++ s :: l2) = some s.content := by
  intro l1
  induction l1 with
  | nil =>
    intro _
    simp only [List.nil_append]
    unfold extractSystemMessage
    rw [List.find?_cons_of_pos]
    · rfl
    · simp [isSystemRole, h2]
  | cons m t ih =>
    intro h1
    have hm : m.role ≠ Role.system := h1 m (List.mem_cons_self m t)
    have ht : ∀ x ∈ t, x.role ≠ Role.system := fun x hx => h1 x (List.mem_cons_of_mem m hx)
    rw [List.cons_append]
    unfold extractSystemMessage
    rw [List.find?_cons_of_neg]
    · exact ih ht
    · cases hr : m.role <;> simp_all [isSystemRole]

/-- Erasing a `System`-role message from the input leaves the converted
exchange history unchanged. -/
theorem convert_drop_system (l1 l2 : List Message) (s : Message)
    (h2 : s.role = Role.system) :
    convertMessages (l1 ++ s :: l2) = convertMessages (l1 ++ l2) := by
  rw [convert_eq_filterMap, convert_eq_filterMap, List.filterMap_append,
    List.filterMap_append]
  congr 1
  rw [List.filterMap_cons]
  have hs : exchangeEntry s = none := by
    simp [exchangeEntry, h2]
  rw [hs]

/-- C9: the provider builds the exchange history from exactly the
`User`/`Assistant` messages in original order with roles mapped to
"user"/"assistant", and passes the `System` content as the out-of-band
instruction; in particular `[System "be terse", User "hi"]` yields system
instruction "be terse" and exchange `[{user, "hi"}]`. -/
theorem provider_exchange_spec (msgs : List Message) :
    convertMessages msgs = msgs.filterMap exchangeEntry ∧
    (generateRequest [Message.system "s1" "be terse", Message.user "u1" "hi"]).system
      = some "be terse" ∧
    (generateRequest [Message.system "s1" "be terse", Message.user "u1" "hi"]).messages
      = [{ role := "user", content := "hi" }] :=
  ⟨convert_eq_filterMap msgs, rfl, rfl⟩

/-- C10: only the first `System`-role message supplies the system
instruction, and `System`-role messages never reach the exchange history,
so every later `System` message is dropped entirely; concretely, with two
`System` messages the instruction is the first one's content and the
exchange holds only the user turn. -/
theorem system_first_only (l1 l2 : List Message) (s : Message)
    (h1 : ∀ m ∈ l1, m.role ≠ Role.system) (h2 : s.role = Role.system) :
    extractSystemMessage (l1 ++ s :: l2) = some s.content ∧
    convertMessages (l1 ++ s :: l2) = convertMessages (l1 ++ l2) ∧
    extractSystemMessage
      [Message.system "s1" "first", Message.user "u1" "hi", Message.system "s2" "second"]
      = some "first" ∧
    convertMessages
      [Message.system "s1" "first", Message.user "u1" "hi", Message.system "s2" "second"]
      = [{ role := "user", content := "hi" }] :=
  ⟨find_first_system l2 s h2 l1 h1, convert_drop_system l1 l2 s h2, rfl, rfl⟩

/-- Witness for `system_first_only`: a user turn followed by one system
message; the instruction is that system message's content. -/
theorem system_first_only_witness :
    (∀ m ∈ [Message.user "u0" "x"], m.role ≠ Role.system) ∧
    (Message.system "s9" "be terse").role = Role.system ∧
    extractSystemMessage ([Message.user "u0" "x"] ++ Message.system "s9" "be terse" :: [])
      = some "be terse" :=
  ⟨by decide, rfl,
    (system_first_only [Message.user "u0" "x"] [] (Message.system "s9" "be terse")
      (by decide) rfl).1⟩

/-- C1 (evaluation at the failing input): with the default configuration
(`max_context_messages = 50`) and eleven stored messages, step 2 of
`process_cycle` loads only the 10 most recent messages — the hardcoded
`retrieve(10)` — although the configured context window would ask for all
`min 50 11 = 11` of them. -/
theorem context_limit_hardcoded :
    (loadContext cfg50 elevenMessages).length = 10 ∧
    min cfg50.maxContextMessages elevenMessages.length = 11 := by
  exact ⟨by decide, by decide⟩

/-- One unfolding of the `run` loop when the flag reads true. -/
theorem agentRun_succ_true (fuel : Nat) (flags : Nat → Bool)
    (results : Nat → Except String Unit) (h : flags 0 = true) :
    agentRun (fuel + 1) flags results =
      match agentRun fuel (fun n => flags (n + 1)) (fun n => results (n + 1)) with
      | none => none
      | some (k, errs) =>
        some (k + 1,
          (match results 0 with
           | Except.ok _ => []
           | Except.error e => [e]) ++ errs) := by
  rw [agentRun]
  simp [h]

/-- Unfolding of the logged-error list by one cycle. -/
theorem cycleErrors_succ (k : Nat) (results : Nat → Except String Unit) :
    cycleErrors (k + 1) results =
      (match results 0 with
       | Except.ok _ => []
       | Except.error e => [e]) ++ cycleErrors k (fun n => results (n + 1)) := by
  unfold cycleErrors
  rw [List.range_succ_eq_map, List.filterMap_cons]
  cases h : results 0 with
  | ok r =>
    simp only [h, List.nil_append]
    rw [List.filterMap_map]
    rfl
  | error e =>
    simp only [h, List.singleton_append]
    rw [List.filterMap_map]
    rfl

/-- C2: if the running flag reads true for the first `k` iterations and
false at iteration `k`, the `run` loop executes exactly `k` cycles — for
every assignment of cycle outcomes, so an erroring `process_cycle` never
makes `run` exit — records exactly the errors of those cycles in order,
and then returns normally, having terminated only on the false flag. -/
theorem run_survives_cycle_errors (k : Nat) :
    ∀ (flags : Nat → Bool) (results : Nat → Except String Unit),
      (∀ i, i < k → flags i = true) → flags k = false →
      agentRun (k + 1) flags results = some (k, cycleErrors k results) := by
  induction k with
  | zero =>
    intro flags results _ h2
    rw [agentRun]
    simp [h2, cycleErrors]
  | succ n ih =>
    intro flags results h1 h2
    have hf0 : flags 0 = true := h1 0 (Nat.succ_pos n)
    have hrec := ih (fun i => flags (i + 1)) (fun i => results (i + 1))
      (fun i hi => h1 (i + 1) (Nat.succ_lt_succ hi)) h2
    rw [agentRun_succ_true (n + 1) flags results hf0, hrec, cycleErrors_succ]

/-- Witness for `run_survives_cycle_errors`: flag true for two iterations
then false, first cycle failing — the loop still runs both cycles and logs
the error. -/
theorem run_survives_cycle_errors_witness :
    (∀ i, i < 2 → wFlags i = true) ∧ wFlags 2 = false ∧
    agentRun 3 wFlags wResults = some (2, cycleErrors 2 wResults) :=
  ⟨by decide, by decide,
    run_survives_cycle_errors 2 wFlags wResults (by decide) (by decide)⟩

/-- The synthesized input message of a cycle is always in the storage
state the cycle leaves behind: it is stored before the provider call. -/
theorem input_mem_processCycle (cfg : AgentConfig) (mem : List Message)
    (gen : List Message → Except String String) (inputId replyId : String) :
    inputMessage inputId ∈ (processCycle cfg mem gen inputId replyId).2 := by
  simp only [processCycle, storeImpl]
  cases hg : gen (loadContext cfg mem ++ [inputMessage inputId]) <;> simp [hg]

/-- A cycle that reports success stored the input and then the assistant
reply the provider produced. -/
theorem processCycle_ok_shape (cfg : AgentConfig) (mem : List Message)
    (gen : List Message → Except String String) (inputId replyId : String) :
    (processCycle cfg mem gen inputId replyId).1 = Except.ok () →
    ∃ resp, (processCycle cfg mem gen inputId replyId).2
      = mem ++ [inputMessage inputId] ++ [Message.assistant replyId resp] := by
  simp only [processCycle, storeImpl]
  cases hg : gen (loadContext cfg mem ++ [inputMessage inputId]) with
  | error e0 => intro h; exact Except.noConfusion h
  | ok resp => intro _; exact ⟨resp, rfl⟩

/-- C3: each `process_cycle` appends its input message to Memory exactly
once, before the provider call: on provider failure the cycle errors but
the new storage state is the old one plus exactly the input; on success it
is the old one plus the input and the assistant reply; and a later
successful cycle leaves both the failed cycle's input and the new reply in
Memory. -/
theorem process_cycle_persists_input (cfg : AgentConfig) (mem : List Message)
    (gen gen2 : List Message → Except String String) (id1 rid1 id2 rid2 : String) :
    (∀ e, (processCycle cfg mem gen id1 rid1).1 = Except.error e →
       (processCycle cfg mem gen id1 rid1).2 = mem ++ [inputMessage id1]) ∧
    (∀ r, (processCycle cfg mem gen id1 rid1).1 = Except.ok r →
       ∃ resp, (processCycle cfg mem gen id1 rid1).2
         = mem ++ [inputMessage id1] ++ [Message.assistant rid1 resp]) ∧
    ((processCycle cfg (processCycle cfg mem gen id1 rid1).2 gen2 id2 rid2).1
        = Except.ok () →
      inputMessage id1
        ∈ (processCycle cfg (processCycle cfg mem gen id1 rid1).2 gen2 id2 rid2).2 ∧
      ∃ resp, Message.assistant rid2 resp
        ∈ (processCycle cfg (processCycle cfg mem gen id1 rid1).2 gen2 id2 rid2).2) := by
  have hmem1 : inputMessage id1 ∈ (processCycle cfg mem gen id1 rid1).2 :=
    input_mem_processCycle cfg mem gen id1 rid1
  refine ⟨?_, ?_, ?_⟩
  · simp only [processCycle, storeImpl]
    cases hg : gen (loadContext cfg mem ++ [inputMessage id1]) with
    | error e0 => intro e _; rfl
    | ok resp => intro e he; exact Except.noConfusion he
  · simp only [processCycle, storeImpl]
    cases hg : gen (loadContext cfg mem ++ [inputMessage id1]) with
    | error e0 => intro r hr; exact Except.noConfusion hr
    | ok resp => intro r _; exact ⟨resp, rfl⟩
  · intro h2
    obtain ⟨resp, hshape⟩ :=
      processCycle_ok_shape cfg (processCycle cfg mem gen id1 rid1).2 gen2 id2 rid2 h2
    rw [hshape]
    exact ⟨List.mem_append_left _ (List.mem_append_left _ hmem1),
      ⟨resp, List.mem_append_right _ (List.mem_singleton_self _)⟩⟩

/-- Witness for `process_cycle_persists_input`: starting from empty
Memory, a failing provider leaves exactly the input stored, and a second,
succeeding cycle ends with that input and the recovered reply both in
Memory. -/
theorem process_cycle_persists_input_witness :
    (processCycle cfg50 [] genFail "i1" "r1").1 = Except.error "provider down" ∧
    (processCycle cfg50 [] genFail "i1" "r1").2 = [] ++ [inputMessage "i1"] ∧
    (processCycle cfg50 (processCycle cfg50 [] genFail "i1" "r1").2 genOk "i2" "r2").1
      = Except.ok () ∧
    inputMessage "i1"
      ∈ (processCycle cfg50 (processCycle cfg50 [] genFail "i1" "r1").2 genOk "i2" "r2").2 ∧
    ∃ resp, Message.assistant "r2" resp
      ∈ (processCycle cfg50 (processCycle cfg50 [] genFail "i1" "r1").2 genOk "i2" "r2").2 :=
  ⟨rfl,
   (process_cycle_persists_input cfg50 [] genFail genOk "i1" "r1" "i2" "r2").1
     "provider down" rfl,
   rfl,
   ((process_cycle_persists_input cfg50 [] genFail genOk "i1" "r1" "i2" "r2").2.2 rfl).1,
   ((process_cycle_persists_input cfg50 [] genFail genOk "i1" "r1" "i2" "r2").2.2 rfl).2⟩

end Skynet
